import Mathlib

/-!
Verification development for the DEHN interactive-manual backend.

This file gives a shallow embedding, in Lean 4, of the retrieval engine and
interactive session state machine of the backend
(`backend/services/embedding_service.py`, `backend/services/pdf_processor.py`,
`backend/services/video_agent.py`), and proves properties of that embedding.

Modelling conventions, used throughout:

* Python floats are idealised: similarity scores in the search pipeline are
  rationals (`ℚ`), and the numeric cosine-similarity function itself is
  modelled over the reals (`ℝ`), where `sklearn`'s
  `cosine_similarity(a, b) = a·b / (‖a‖‖b‖)`.
* External collaborators (the OpenAI/Gemini embedding calls, the generative
  responder, the speech-to-text transcriber, wall-clock time, uuid generation)
  are function or value parameters of the embedded operations: `embedText`,
  `embedImage`, `sim`, `complete`, `transcript`, `now`, `sid`.
* Python dicts used as records become structures; the two process-wide dicts
  (`active_sessions`, `installation_progress`) become insertion-ordered
  association lists with Python-dict update semantics (`dictSet` below).
* Python exceptions that are raised to the caller become `Except.error`;
  error payloads that are returned as dicts (the `{"error": ...}` responses)
  become explicit `failure` constructors.
-/

namespace DehnManual

/-! ## Documents

A document as produced by `PDFProcessor.process_pdf` and consumed by
`EmbeddingService`: a dict with keys `id`, `content`, `type`, `page_number`,
`embedding` and a `metadata` sub-dict of which the search pipeline reads
`section` and `safety_level`.  `embedding = none` models a dict without the
`"embedding"` key; `some []` models a present but empty embedding list. -/

structure Doc where
  id : String
  content : String
  docType : String
  pageNumber : Option ℕ
  embedding : Option (List ℚ)
  msection : Option String
  msafetyLevel : Option String
deriving DecidableEq

/-- The guard `"embedding" in doc and doc["embedding"]` from
`EmbeddingService.search_similar` / `search_multimodal`: the key is present
and its value is a non-empty list. -/
def hasEmbedding (d : Doc) : Bool :=
  match d.embedding with
  | none => false
  | some v => !v.isEmpty

/-- The embedding actually read by `doc["embedding"]` once the guard holds. -/
def docEmbedding (d : Doc) : List ℚ := d.embedding.getD []

/-! ## Python's stable sort

`list.sort(key=..., reverse=True)` is a stable sort: elements with equal keys
keep their original relative order.  `pySortDesc` is a structurally recursive
stable insertion sort realising exactly that specification (descending by
key, ties in input order). -/

def insertDescBy {α : Type} (key : α → ℚ) (x : α) : List α → List α
  | [] => [x]
  | y :: ys => if key y ≤ key x then x :: y :: ys else y :: insertDescBy key x ys

def pySortDesc {α : Type} (key : α → ℚ) : List α → List α
  | [] => []
  | x :: xs => insertDescBy key x (pySortDesc key xs)

/-! ## EmbeddingService.search_similar

`search_similar(query, documents, top_k)`: embeds the query (external call
`generate_text_embedding`, modelled by the `embedText` parameter, which
returns `[]` on failure exactly as the Python does); returns `[]` if the
query embedding is empty; otherwise scores every document that passes the
embedding guard with `_cosine_similarity` (modelled by the `sim` parameter),
sorts the `(document, similarity)` pairs by similarity descending (stable),
and returns the documents of the first `top_k` pairs. -/

def searchSimilar (embedText : String → List ℚ) (sim : List ℚ → List ℚ → ℚ)
    (query : String) (documents : List Doc) (top_k : ℕ) : List Doc :=
  let query_embedding := embedText query
  if query_embedding.isEmpty then []
  else
    let similarities :=
      (documents.filter hasEmbedding).map
        (fun d => (d, sim query_embedding (docEmbedding d)))
    ((pySortDesc Prod.snd similarities).take top_k).map Prod.fst

/-! ## EmbeddingService.search_multimodal

Text search (when `query` is non-empty) and image search (when an image is
supplied and its embedding, obtained through `generate_image_embedding`
modelled by `embedImage`, is non-empty) are run independently, each producing
up to `top_k` results; the text results are concatenated before the image
results, and the concatenation is deduplicated by document id keeping the
first occurrence, breaking off once `top_k` unique results are collected. -/

def textSearchPart (embedText : String → List ℚ) (sim : List ℚ → List ℚ → ℚ)
    (query : String) (documents : List Doc) (top_k : ℕ) : List Doc :=
  if query = "" then [] else searchSimilar embedText sim query documents top_k

def imageSearchPart (embedImage : String → List ℚ) (sim : List ℚ → List ℚ → ℚ)
    (image_base64 : Option String) (documents : List Doc) (top_k : ℕ) : List Doc :=
  match image_base64 with
  | none => []
  | some img =>
    if img = "" then []
    else
      let image_embedding := embedImage img
      if image_embedding.isEmpty then []
      else
        let image_similarities :=
          (documents.filter hasEmbedding).map
            (fun d => (d, sim image_embedding (docEmbedding d)))
        ((pySortDesc Prod.snd image_similarities).take top_k).map Prod.fst

/-- The dedup-and-truncate loop at the end of `search_multimodal`.  `acc` is
`unique_results`; the Python set `seen_ids` always equals the set of ids of
`unique_results`, so the membership test is taken on `acc` directly.  The
`len(unique_results) >= top_k` break test runs on every iteration, after the
conditional append, exactly as in the Python loop. -/
def collectUnique (top_k : ℕ) : List Doc → List Doc → List Doc
  | [], acc => acc
  | d :: rest, acc =>
    let acc' := if d.id ∈ acc.map Doc.id then acc else acc ++ [d]
    if top_k ≤ acc'.length then acc' else collectUnique top_k rest acc'

def searchMultimodal (embedText embedImage : String → List ℚ)
    (sim : List ℚ → List ℚ → ℚ) (query : String) (image_base64 : Option String)
    (documents : List Doc) (top_k : ℕ) : List Doc :=
  collectUnique top_k
    (textSearchPart embedText sim query documents top_k
      ++ imageSearchPart embedImage sim image_base64 documents top_k) []

/-! ## Keyword matching

Python `keyword in content` substring tests and `.lower()`, modelled on
`List Char`.  (`String.toLower` itself is not used because the model keeps
all text functions kernel-computable.) -/

def pyLower (s : String) : List Char := s.data.map Char.toLower

/-- Substring occurrence test: `needle in haystack` in Python. -/
def containsSub (needle : List Char) : List Char → Bool
  | [] => needle.isEmpty
  | c :: rest => needle.isPrefixOf (c :: rest) || containsSub needle rest

/-- `any(keyword in text_lower for keyword in kws)`. -/
def containsAnyKeyword (textLower : List Char) (kws : List String) : Bool :=
  kws.any (fun kw => containsSub kw.data textLower)

/-! ## EmbeddingService.get_safety_related_content

Filters the documents that are safety-related (section is `"safety"`, or
safety level is `"critical"`/`"warning"`, or the lower-cased content contains
one of four keywords) and sorts them, stably, by safety priority descending
(`critical=3, warning=2, info=1`, anything else `0`; a missing level defaults
to `"info"`). -/

def isSafetyRelated (d : Doc) : Bool :=
  d.msection = some "safety"
    || (d.msafetyLevel = some "critical" || d.msafetyLevel = some "warning")
    || containsAnyKeyword (pyLower d.content) ["safety", "warning", "caution", "danger"]

def safetyPriority (d : Doc) : ℚ :=
  match d.msafetyLevel.getD "info" with
  | "critical" => 3
  | "warning" => 2
  | "info" => 1
  | _ => 0

def getSafetyRelatedContent (documents : List Doc) : List Doc :=
  pySortDesc safetyPriority (documents.filter isSafetyRelated)

/-! ## Section / safety-level keyword classifiers

`PDFProcessor._detect_section` and `_detect_safety_level`: pure first-match
keyword classifiers over the lower-cased text. -/

def detectSection (text : String) : String :=
  let tl := pyLower text
  if containsAnyKeyword tl ["safety", "warning", "caution", "danger"] then "safety"
  else if containsAnyKeyword tl ["installation", "mounting", "assembly"] then "installation"
  else if containsAnyKeyword tl ["wiring", "connection", "terminal"] then "wiring"
  else if containsAnyKeyword tl ["troubleshooting", "problem", "fault"] then "troubleshooting"
  else if containsAnyKeyword tl ["specification", "technical", "parameter"] then "specifications"
  else "general"

def detectSafetyLevel (text : String) : String :=
  let tl := pyLower text
  if containsAnyKeyword tl ["danger", "fatal", "death", "electrocution"] then "critical"
  else if containsAnyKeyword tl ["warning", "caution", "risk"] then "warning"
  else "info"

/-- Modelled from the spec: a query is "safety-sensitive" when the keyword
classifier of §4.1 detects safety content in the query text.  The source has
no such query classification; this predicate only states what the spec's
Ranker rule would test. -/
def isSafetySensitiveQuery (query : String) : Bool :=
  detectSection query = "safety"

/-! ## PDFProcessor._split_text_into_chunks

```
words = text.split()
for i in range(0, len(words), self.chunk_size - self.chunk_overlap):
    chunk = ' '.join(words[i:i + self.chunk_size])
    if chunk.strip():
        chunks.append(chunk)
```

Modelled at the word level: the input is the word list produced by
`text.split()` (whose words are non-empty and whitespace-free), a chunk is the
word slice `words[i:i+chunk_size]`, and the guard `chunk.strip()` is truthy
exactly when the slice is non-empty, since `' '.join` of non-empty
whitespace-free words is itself non-empty and not whitespace-only. -/

/-- `range(0, n, step)` for `step > 0`: the `⌈n / step⌉` multiples of `step`
below `n`. -/
def pyRangeStep (n step : ℕ) : List ℕ :=
  List.range' 0 ((n + step - 1) / step) step

def splitTextIntoChunks (chunk_size chunk_overlap : ℕ) (words : List String) :
    List (List String) :=
  ((pyRangeStep words.length (chunk_size - chunk_overlap)).map
      (fun i => (words.drop i).take chunk_size)).filter
    (fun chunk => !chunk.isEmpty)

/-! ## EmbeddingService._cosine_similarity

```
if not vec1 or not vec2 or len(vec1) != len(vec2):
    return 0.0
similarity = cosine_similarity(a, b)[0][0]
```

The float computation is idealised over `ℝ`: `sklearn`'s `cosine_similarity`
is `v·w / (‖v‖ ‖w‖)`.  (In Lean, division by zero is zero, which also matches
`sklearn`'s convention of treating a zero-norm vector as yielding
similarity `0`.) -/

def dotProduct (v w : List ℝ) : ℝ := (List.zipWith (fun a b => a * b) v w).sum

noncomputable def cosineSimilarity (v w : List ℝ) : ℝ :=
  if v = [] ∨ w = [] ∨ v.length ≠ w.length then 0
  else dotProduct v w / (Real.sqrt (dotProduct v v) * Real.sqrt (dotProduct w w))

/-! ## JSON values and `json.loads`

The generative responder replies with text that the agent attempts to parse
with `json.loads` (`VideoAgent.generate_text_response`,
`_parse_video_analysis`).  `Json` models Python's decoded values; numbers are
kept as a decimal mantissa/exponent pair (`mantissa * 10 ^ exp10`), covering
both Python ints and the float literals appearing in this code base.
`Json.parse` is a fuel-indexed RFC 8259 parser modelling `json.loads`:
it returns `none` exactly where `json.loads` raises `JSONDecodeError`
(including on trailing non-whitespace). -/

inductive Json where
  | null
  | jbool (b : Bool)
  | jnum (mantissa : ℤ) (exp10 : ℤ)
  | jstr (s : String)
  | jarr (elems : List Json)
  | jobj (fields : List (String × Json))

def quoteChar : Char := Char.ofNat 34

def backslashChar : Char := Char.ofNat 92

def lbraceChar : Char := Char.ofNat 123

def rbraceChar : Char := Char.ofNat 125

/-- JSON insignificant whitespace: space, tab, line feed, carriage return. -/
def isJsonWs (c : Char) : Bool :=
  c = ' ' || c = Char.ofNat 9 || c = Char.ofNat 10 || c = Char.ofNat 13

def skipWs (cs : List Char) : List Char := cs.dropWhile isJsonWs

def hexVal (c : Char) : Option ℕ :=
  if '0' ≤ c ∧ c ≤ '9' then some (c.toNat - 48)
  else if 'a' ≤ c ∧ c ≤ 'f' then some (c.toNat - 87)
  else if 'A' ≤ c ∧ c ≤ 'F' then some (c.toNat - 55)
  else none

def unescapeChar (c : Char) : Option Char :=
  if c = quoteChar then some quoteChar
  else if c = backslashChar then some backslashChar
  else if c = '/' then some '/'
  else if c = 'b' then some (Char.ofNat 8)
  else if c = 'f' then some (Char.ofNat 12)
  else if c = 'n' then some (Char.ofNat 10)
  else if c = 'r' then some (Char.ofNat 13)
  else if c = 't' then some (Char.ofNat 9)
  else none

/-- Body of a JSON string after the opening quote: returns the decoded
characters and the remaining input after the closing quote. -/
def parseStrAux : List Char → Option (List Char × List Char)
  | [] => none
  | c :: rest =>
    if c = quoteChar then some ([], rest)
    else if c = backslashChar then
      match rest with
      | [] => none
      | e :: rest2 =>
        if e = 'u' then
          match rest2 with
          | a :: b :: c2 :: d :: rest3 =>
            (match hexVal a, hexVal b, hexVal c2, hexVal d with
             | some ha, some hb, some hc, some hd =>
               (match parseStrAux rest3 with
                | some (cs, rem) =>
                  some (Char.ofNat (((ha * 16 + hb) * 16 + hc) * 16 + hd) :: cs, rem)
                | none => none)
             | _, _, _, _ => none)
          | _ => none
        else
          match unescapeChar e with
          | none => none
          | some u =>
            (match parseStrAux rest2 with
             | some (cs, rem) => some (u :: cs, rem)
             | none => none)
    else if c.toNat < 32 then none
    else
      match parseStrAux rest with
      | some (cs, rem) => some (c :: cs, rem)
      | none => none

def digitsToNat (ds : List Char) : ℕ :=
  ds.foldl (fun acc c => acc * 10 + (c.toNat - 48)) 0

/-- Optional fraction part `('.' digits+)?`. -/
def parseFracPart (cs : List Char) : Option (List Char × List Char) :=
  match cs with
  | c :: r =>
    if c = '.' then
      let f := r.takeWhile Char.isDigit
      if f.isEmpty then none else some (f, r.dropWhile Char.isDigit)
    else some ([], cs)
  | [] => some ([], [])

/-- Optional exponent part `([eE] [+-]? digits+)?`, returning its value. -/
def parseExpPart (cs : List Char) : Option (ℤ × List Char) :=
  match cs with
  | c :: r =>
    if c = 'e' ∨ c = 'E' then
      let (sign, r2) : ℤ × List Char :=
        match r with
        | s :: r' => if s = '-' then (-1, r') else if s = '+' then (1, r') else (1, r)
        | [] => (1, [])
      let ds := r2.takeWhile Char.isDigit
      if ds.isEmpty then none
      else some (sign * (digitsToNat ds : ℤ), r2.dropWhile Char.isDigit)
    else some (0, cs)
  | [] => some (0, [])

/-- A JSON number: `'-'? ('0' | [1-9] digits*) frac? exp?`. -/
def parseNumber (cs : List Char) : Option (Json × List Char) :=
  let (neg, cs1) : Bool × List Char :=
    match cs with
    | c :: r => if c = '-' then (true, r) else (false, cs)
    | [] => (false, [])
  let intDigits := cs1.takeWhile Char.isDigit
  let cs2 := cs1.dropWhile Char.isDigit
  if intDigits.isEmpty then none
  else if intDigits.head? = some '0' ∧ 1 < intDigits.length then none
  else
    match parseFracPart cs2 with
    | none => none
    | some (fracDigits, cs3) =>
      match parseExpPart cs3 with
      | none => none
      | some (e, cs4) =>
        let mantissa : ℤ :=
          (if neg then -1 else 1) * (digitsToNat (intDigits ++ fracDigits) : ℤ)
        some (Json.jnum mantissa (e - (fracDigits.length : ℤ)), cs4)

/-- Intermediate results of the recursive descent. -/
inductive PRes where
  | value (j : Json)
  | elems (es : List Json)
  | fields (fs : List (String × Json))

/-- Parser modes: a single value, the tail of an array after an element
(`(',' value)* ']'`), the tail of an object after a member. -/
inductive PMode where
  | value
  | arrTail
  | objTail

/-- Recursive-descent JSON parser, fuel-indexed so that it is structurally
recursive (and therefore kernel-computable).  Every recursive call follows
the consumption of at least one input character, so fuel `length + 1`
suffices in `Json.parse`. -/
def parseF : ℕ → PMode → List Char → Option (PRes × List Char)
  | 0, _, _ => none
  | fuel + 1, PMode.value, cs0 =>
    match skipWs cs0 with
    | [] => none
    | c :: rest =>
      if c = 't' then
        if ['r', 'u', 'e'].isPrefixOf rest then some (.value (.jbool true), rest.drop 3)
        else none
      else if c = 'f' then
        if ['a', 'l', 's', 'e'].isPrefixOf rest then some (.value (.jbool false), rest.drop 4)
        else none
      else if c = 'n' then
        if ['u', 'l', 'l'].isPrefixOf rest then some (.value .null, rest.drop 3)
        else none
      else if c = quoteChar then
        match parseStrAux rest with
        | some (chars, rest2) => some (.value (.jstr (String.mk chars)), rest2)
        | none => none
      else if c = '[' then
        match skipWs rest with
        | [] => none
        | c2 :: rest2 =>
          if c2 = ']' then some (.value (.jarr []), rest2)
          else
            match parseF fuel PMode.value (c2 :: rest2) with
            | some (.value e, cs3) =>
              (match parseF fuel PMode.arrTail cs3 with
               | some (.elems es, cs4) => some (.value (.jarr (e :: es)), cs4)
               | _ => none)
            | _ => none
      else if c = lbraceChar then
        match skipWs rest with
        | [] => none
        | c2 :: rest2 =>
          if c2 = rbraceChar then some (.value (.jobj []), rest2)
          else if c2 = quoteChar then
            match parseStrAux rest2 with
            | some (kcs, cs3) =>
              (match skipWs cs3 with
               | ':' :: cs4 =>
                 (match parseF fuel PMode.value cs4 with
                  | some (.value v, cs5) =>
                    (match parseF fuel PMode.objTail cs5 with
                     | some (.fields fs, cs6) =>
                       some (.value (.jobj ((String.mk kcs, v) :: fs)), cs6)
                     | _ => none)
                  | _ => none)
               | _ => none)
            | none => none
          else none
      else
        match parseNumber (c :: rest) with
        | some (j, rem) => some (.value j, rem)
        | none => none
  | fuel + 1, PMode.arrTail, cs0 =>
    match skipWs cs0 with
    | [] => none
    | c :: rest =>
      if c = ']' then some (.elems [], rest)
      else if c = ',' then
        match parseF fuel PMode.value rest with
        | some (.value e, cs2) =>
          (match parseF fuel PMode.arrTail cs2 with
           | some (.elems es, cs3) => some (.elems (e :: es), cs3)
           | _ => none)
        | _ => none
      else none
  | fuel + 1, PMode.objTail, cs0 =>
    match skipWs cs0 with
    | [] => none
    | c :: rest =>
      if c = rbraceChar then some (.fields [], rest)
      else if c = ',' then
        match skipWs rest with
        | [] => none
        | c2 :: rest2 =>
          if c2 = quoteChar then
            match parseStrAux rest2 with
            | some (kcs, cs3) =>
              (match skipWs cs3 with
               | ':' :: cs4 =>
                 (match parseF fuel PMode.value cs4 with
                  | some (.value v, cs5) =>
                    (match parseF fuel PMode.objTail cs5 with
                     | some (.fields fs, cs6) =>
                       some (.fields ((String.mk kcs, v) :: fs), cs6)
                     | _ => none)
                  | _ => none)
               | _ => none)
            | none => none
          else none
      else none

/-- `json.loads`: parse one value, then allow only trailing whitespace. -/
def Json.parse (s : String) : Option Json :=
  match parseF (s.data.length + 1) PMode.value s.data with
  | some (PRes.value j, rest) => if (skipWs rest).isEmpty then some j else none
  | _ => none

/-- Python `dict` access `j[key]` on a decoded JSON value: `none` models both
`KeyError` (missing key) and `TypeError` (not a dict).  `json.loads` lets a
later duplicate key win, hence the reversed lookup. -/
def jsonGet (j : Json) (key : String) : Option Json :=
  match j with
  | Json.jobj fields => fields.reverse.lookup key
  | _ => none

/-- Python `len(x)` on a decoded JSON value: defined for lists, dicts and
strings, `none` models `TypeError` otherwise. -/
def jsonLen (j : Json) : Option ℕ :=
  match j with
  | Json.jarr es => some es.length
  | Json.jobj fs => some fs.length
  | Json.jstr s => some s.length
  | _ => none

/-! ## VideoAgent.generate_text_response -/

/-- The fixed fallback dict returned when `json.loads(response.text)` raises
`JSONDecodeError`:
`{"answer": response.text, "sources": [{"page": "Multiple", "section":
"General", "relevance": 0.8}], "confidence": 0.7, "safety_warnings": []}`. -/
def fallbackResponse (raw : String) : Json :=
  Json.jobj
    [("answer", Json.jstr raw),
     ("sources", Json.jarr
        [Json.jobj
           [("page", Json.jstr "Multiple"),
            ("section", Json.jstr "General"),
            ("relevance", Json.jnum 8 (-1))]]),
     ("confidence", Json.jnum 7 (-1)),
     ("safety_warnings", Json.jarr [])]

/-- `doc.get('page_number', 'N/A')` as displayed in the context text. -/
def pageDisplay (d : Doc) : String :=
  match d.pageNumber with
  | some n => toString n
  | none => "N/A"

def joinSep (sep : String) : List String → String
  | [] => ""
  | [x] => x
  | x :: y :: xs => x ++ sep ++ joinSep sep (y :: xs)

/-- `context_text`: the top documents, truncated to five, each rendered as
`[Page <n>]: <content>` and joined with blank lines. -/
def buildContextText (relevant_docs : List Doc) : String :=
  joinSep (String.mk [Char.ofNat 10, Char.ofNat 10])
    ((relevant_docs.take 5).map (fun d => "[Page " ++ pageDisplay d ++ "]: " ++ d.content))

/-- The prompt handed to the generative responder.  The constant instruction
prose of the source is abridged (it is opaque to every property proved here);
the structure — product id, language, context text, user question — is kept. -/
def buildPrompt (productId language context_text query : String) : String :=
  "You are a DEHN electrical installation expert assistant. "
    ++ "Answer the question using ONLY the provided manual content. Product: "
    ++ productId ++ " Language: " ++ language
    ++ " Manual Content: " ++ context_text
    ++ " User Question: " ++ query
    ++ " Respond in JSON format."

/-- `VideoAgent.generate_text_response(query, relevant_docs, product_id,
language)`.  The external call `model.generate_content_async(prompt)` is
modelled by the `complete` parameter; the function also returns the
`context_text` it computed (the payload the source hands to the responder),
which is the observable needed to state which documents were used.  The
result is the decoded reply if `json.loads` succeeds — with no further
validation of its shape — and the fixed `fallbackResponse` otherwise. -/
def generateTextResponse (complete : String → String) (query : String)
    (relevant_docs : List Doc) (productId language : String) : String × Json :=
  let context_text := buildContextText relevant_docs
  let prompt := buildPrompt productId language context_text query
  let reply := complete prompt
  (context_text,
    match Json.parse reply with
    | some j => j
    | none => fallbackResponse reply)

/-- Modelled from the spec: the expected structured reply
`{answer, sources, confidence ∈ [0,1], safetyWarnings}` of §4.5.  The source
never checks this shape; the predicate exists only to state claims about
replies that are or are not "parseable as the expected structured JSON". -/
def isAnswerShape (j : Json) : Bool :=
  (match jsonGet j "answer" with
   | some (Json.jstr _) => true
   | _ => false)
  && (match jsonGet j "sources" with
      | some (Json.jarr _) => true
      | _ => false)
  && (match jsonGet j "confidence" with
      | some (Json.jnum _ _) => true
      | _ => false)
  && (match jsonGet j "safety_warnings" with
      | some (Json.jarr _) => true
      | _ => false)

/-! ## VideoAgent: sessions

`VideoAgent.active_sessions` is a Python dict from session id to a session
dict; it is modelled as an insertion-ordered association list with
Python-dict update semantics (`dictSet`: overwrite in place if the key
exists, else append).  Wall-clock `datetime.now()` readings and the uuid for
a new session are external inputs (`now`, `sid`). -/

/-- A `conversation_history` entry.  `detectedObjects = none` models the
audio-only entries, which carry no `"detected_objects"` key. -/
structure ConversationTurn where
  timestamp : ℕ
  frameAnalyzed : Bool
  audioTranscript : Option String
  aiResponse : Json
  detectedObjects : Option Json

structure ProgressEntry where
  completed : Bool
  timestamp : ℕ
  componentsDetected : ℕ
deriving DecidableEq

/-- The parts of `product_data` the agent reads: `product_data["name"]` and
`product_data["documents"]`. -/
structure ProductData where
  name : String
  documents : List Doc
deriving DecidableEq

/-- The session dict built by `VideoAgent.create_session`.
`detectedObjectsHistory` is initialised empty and never written afterwards,
exactly as `detected_objects_history` in the source. -/
structure Session where
  id : String
  productId : String
  productName : String
  productDocs : List Doc
  createdAt : ℕ
  status : String
  history : List ConversationTurn
  detectedObjectsHistory : List Json
  currentStep : ℕ
  progress : List (String × ProgressEntry)
  endedAt : Option ℕ

abbrev SessionState := List (String × Session)

/-- Python dict assignment `d[k] = v` on an insertion-ordered association
list: overwrite in place if the key exists, else append at the end. -/
def dictSet {β : Type} : List (String × β) → String → β → List (String × β)
  | [], k, v => [(k, v)]
  | (k', v') :: rest, k, v =>
    if k' = k then (k, v) :: rest else (k', v') :: dictSet rest k v

def lookupSession (st : SessionState) (sid : String) : Option Session :=
  st.lookup sid

/-- The dict returned by `create_session`. -/
structure CreateResult where
  id : String
  productName : String
  status : String
deriving DecidableEq

def mkSession (sid productId : String) (pdata : ProductData) (now : ℕ) : Session :=
  { id := sid
    productId := productId
    productName := pdata.name
    productDocs := pdata.documents
    createdAt := now
    status := "active"
    history := []
    detectedObjectsHistory := []
    currentStep := 1
    progress := []
    endedAt := none }

/-- `VideoAgent.create_session(product_id, product_data)`; the fresh uuid is
the `sid` parameter. -/
def createSession (st : SessionState) (sid productId : String)
    (pdata : ProductData) (now : ℕ) : CreateResult × SessionState :=
  ({ id := sid, productName := pdata.name, status := "ready" },
    dictSet st sid (mkSession sid productId pdata now))

/-! ## VideoAgent frame / audio processing -/

/-- The fallback dict of `VideoAgent._parse_video_analysis`. -/
def fallbackAnalysis (raw : String) : Json :=
  Json.jobj
    [("ai_response", Json.jstr raw),
     ("detected_objects", Json.jarr []),
     ("installation_guidance", Json.jarr []),
     ("safety_alerts", Json.jarr [])]

/-- `response_text.strip().startswith('\x7b')`. -/
def startsWithLbraceAfterStrip (s : String) : Bool :=
  match s.data.dropWhile Char.isWhitespace with
  | c :: _ => c = lbraceChar
  | [] => false

/-- `VideoAgent._parse_video_analysis`: attempt `json.loads` only when the
stripped text starts with a brace; any parse failure, like any other
exception in the body, lands in the fallback dict. -/
def parseVideoAnalysis (response_text : String) : Json :=
  if startsWithLbraceAfterStrip response_text then
    match Json.parse response_text with
    | some j => j
    | none => fallbackAnalysis response_text
  else fallbackAnalysis response_text

/-- The constant list returned by `VideoAgent._get_next_steps`. -/
def nextStepsList : List String :=
  ["Continue with the current installation step",
   "Verify all connections are secure",
   "Check safety requirements"]

/-- The multimodal `parts` payload of `process_video_frame`, flattened to one
string for the `complete` parameter: system prompt (constant prose abridged),
the inline frame data, and the `User said:` part when the audio transcript is
truthy. -/
def buildFrameParts (productName frame_base64 : String)
    (audio_transcript : Option String) : String :=
  "You are an expert DEHN electrical installation assistant analyzing a live video feed. Product: "
    ++ productName ++ " [inline image: " ++ frame_base64 ++ "]"
    ++ (match audio_transcript with
        | some t => if t = "" then "" else " User said: " ++ t
        | none => "")

/-- The dict returned by `process_video_frame`: either the analysis payload
(with the progress snapshot and next steps) or the `{"error": ...}` payload
produced by the enclosing `except` block. -/
inductive FrameResult where
  | failure (errorMsg : String)
  | success (analysis : Json) (progressSnapshot : List (String × ProgressEntry))
      (nextSteps : List String)

/-- `VideoAgent.process_video_frame(session_id, frame_base64, audio_base64)`.

* An unknown session id raises `ValueError` — `Except.error` — before the
  `try` block; nothing else raises to the caller.
* The session's `status` is never consulted.
* `transcript` models the external `_process_audio_to_text`; per the source,
  `audio_transcript` stays `None` unless `audio_base64` is truthy.
* On the happy path a history entry is appended and
  `_update_installation_progress` overwrites `progress["step_" + str(current_step)]`.
* If the parsed analysis dict lacks `"ai_response"`/`"detected_objects"`, the
  `KeyError` while building the history entry is caught by the outer
  `except`, which returns an error payload with nothing appended; if
  `len(analysis["detected_objects"])` raises `TypeError`, the turn has
  already been appended and stays. -/
def processVideoFrame (complete : String → String) (st : SessionState)
    (sid frame_base64 : String) (audio_base64 : Option String)
    (transcript : Option String) (now : ℕ) :
    Except String (FrameResult × SessionState) :=
  match lookupSession st sid with
  | none => Except.error ("Session " ++ sid ++ " not found")
  | some s =>
    let audio_transcript : Option String :=
      match audio_base64 with
      | none => none
      | some a => if a = "" then none else transcript
    let reply := complete (buildFrameParts s.productName frame_base64 audio_transcript)
    let analysis := parseVideoAnalysis reply
    match jsonGet analysis "ai_response", jsonGet analysis "detected_objects" with
    | some air, some dob =>
      let turn : ConversationTurn :=
        { timestamp := now, frameAnalyzed := true, audioTranscript := audio_transcript,
          aiResponse := air, detectedObjects := some dob }
      let s1 := { s with history := s.history ++ [turn] }
      (match jsonLen dob with
       | some n =>
         let entry : ProgressEntry :=
           { completed := decide (0 < n), timestamp := now, componentsDetected := n }
         let s2 :=
           { s1 with progress := dictSet s1.progress ("step_" ++ toString s1.currentStep) entry }
         Except.ok (FrameResult.success analysis s2.progress nextStepsList, dictSet st sid s2)
       | none =>
         Except.ok (FrameResult.failure "TypeError: len", dictSet st sid s1))
    | _, _ => Except.ok (FrameResult.failure "KeyError", st)

/-- The dict returned by `process_audio`. -/
inductive AudioResult where
  | failure (errorMsg : String)
  | success (transcript : String) (contextSent : String) (response : Json)

/-- `VideoAgent.process_audio(session_id, audio_base64)`.

* Unknown session id: `ValueError` (`Except.error`); the `status` is never
  consulted.
* A falsy transcript (`none` or `""`) from the external transcriber yields
  the `"Could not process audio"` error payload.
* Otherwise `generate_text_response` runs against
  `session["product_context"]["documents"][:5]` — the first five stored
  documents — and a turn with `frame_analyzed=False` is appended. -/
def processAudio (complete : String → String) (st : SessionState)
    (sid audio_base64 : String) (transcript : Option String) (now : ℕ) :
    Except String (AudioResult × SessionState) :=
  match lookupSession st sid with
  | none => Except.error ("Session " ++ sid ++ " not found")
  | some s =>
    match transcript with
    | none => Except.ok (AudioResult.failure "Could not process audio", st)
    | some t =>
      if t = "" then Except.ok (AudioResult.failure "Could not process audio", st)
      else
        let ctxResp := generateTextResponse complete t (s.productDocs.take 5) s.productId "en"
        match jsonGet ctxResp.2 "answer" with
        | some answer =>
          let turn : ConversationTurn :=
            { timestamp := now, frameAnalyzed := false, audioTranscript := some t,
              aiResponse := answer, detectedObjects := none }
          let s1 := { s with history := s.history ++ [turn] }
          Except.ok (AudioResult.success t ctxResp.1 ctxResp.2, dictSet st sid s1)
        | none => Except.ok (AudioResult.failure "KeyError: answer", st)

/-- `VideoAgent.end_session(session_id)`: sets `status` to `"ended"` and
`ended_at` to the current time when the id is known; silently does nothing
otherwise.  It never raises and returns nothing. -/
def endSession (st : SessionState) (sid : String) (now : ℕ) : SessionState :=
  match lookupSession st sid with
  | none => st
  | some s => dictSet st sid { s with status := "ended", endedAt := some now }

/-! ## Session operation sequences -/

/-- One call against the session manager, with all external inputs (fresh
uuid, responder reply, transcript, clock readings) recorded in the
operation. -/
inductive AgentOp where
  | createOp (sid productId : String) (pdata : ProductData) (now : ℕ)
  | frameOp (sid frame_base64 : String) (audio_base64 : Option String)
      (reply : String) (transcript : Option String) (now : ℕ)
  | audioOp (sid audio_base64 : String) (transcript : Option String)
      (reply : String) (now : ℕ)
  | endOp (sid : String) (now : ℕ)

/-- The state after one operation (results discarded; a raised `ValueError`
leaves the state untouched). -/
def applyOp (st : SessionState) : AgentOp → SessionState
  | AgentOp.createOp sid pid pdata now => (createSession st sid pid pdata now).2
  | AgentOp.frameOp sid fr au reply tr now =>
    match processVideoFrame (fun _ => reply) st sid fr au tr now with
    | Except.ok (_, st') => st'
    | Except.error _ => st
  | AgentOp.audioOp sid au tr reply now =>
    match processAudio (fun _ => reply) st sid au tr now with
    | Except.ok (_, st') => st'
    | Except.error _ => st
  | AgentOp.endOp sid now => endSession st sid now

def runOps (st : SessionState) (ops : List AgentOp) : SessionState :=
  ops.foldl applyOp st

/-- Every session in the table has `currentStep = 1`.  No operation of the
source ever writes `session["current_step"]` after creation, so this is the
(strong form of the) reachable-state invariant underlying the monotonicity of
`currentStep`. -/
def stepsOne (st : SessionState) : Prop :=
  ∀ p ∈ st, (p.2).currentStep = 1

/-- Observation helper: the `context_text` that a `process_audio` call handed
to the external responder, when the call returned the success payload. -/
def audioCtxOf : Except String (AudioResult × SessionState) → Option String
  | Except.ok (AudioResult.success _ ctx _, _) => some ctx
  | _ => none

/-! ## Concrete sample data for the executable checks -/

def sampleProduct : ProductData := { name := "DEHNguard", documents := [] }

def docInfo : Doc :=
  { id := "d_info", content := "general mounting notes", docType := "text",
    pageNumber := some 1, embedding := some [1], msection := some "general",
    msafetyLevel := some "info" }

def docCritical : Doc :=
  { id := "d_critical", content := "danger of electrocution", docType := "text",
    pageNumber := some 2, embedding := some [1], msection := some "safety",
    msafetyLevel := some "critical" }

def docWarning : Doc :=
  { id := "d_warning", content := "warning hot surface", docType := "text",
    pageNumber := some 3, embedding := some [1], msection := some "safety",
    msafetyLevel := some "warning" }

def c2docs : List Doc := [docInfo, docCritical, docWarning]

def c2embed : String → List ℚ := fun _ => [1]

def c2sim : List ℚ → List ℚ → ℚ := fun _ _ => 1

def c7docA : Doc :=
  { id := "a", content := "ca", docType := "text", pageNumber := none,
    embedding := some [0], msection := none, msafetyLevel := none }

def c7docB : Doc :=
  { id := "b", content := "cb", docType := "text", pageNumber := none,
    embedding := some [0], msection := none, msafetyLevel := none }

def c7docC : Doc :=
  { id := "c", content := "cc", docType := "text", pageNumber := none,
    embedding := some [0], msection := none, msafetyLevel := none }

def c7docD : Doc :=
  { id := "d", content := "cd", docType := "text", pageNumber := none,
    embedding := some [0], msection := none, msafetyLevel := none }

def c7docE : Doc :=
  { id := "e", content := "ce", docType := "text", pageNumber := none,
    embedding := some [0], msection := none, msafetyLevel := none }

def c7docF : Doc :=
  { id := "f", content := "cf", docType := "text", pageNumber := none,
    embedding := some [5], msection := none, msafetyLevel := none }

def c7docs : List Doc := [c7docA, c7docB, c7docC, c7docD, c7docE, c7docF]

def c7product : ProductData := { name := "DEHNventil", documents := c7docs }

def c7state : SessionState := (createSession [] "s1" "p1" c7product 0).2

def c7embed : String → List ℚ := fun _ => [1]

def c7sim : List ℚ → List ℚ → ℚ := fun _ e => e.headD 0

def c1state : SessionState :=
  endSession ((createSession [] "s1" "p1" sampleProduct 0).2) "s1" 1

def c9state : SessionState := (createSession [] "s9" "p9" sampleProduct 0).2

def c8ops0 : List AgentOp := [AgentOp.createOp "s8" "p8" sampleProduct 0]

def c8ops : List AgentOp :=
  [AgentOp.frameOp "s8" "frame" none "hi" none 1,
   AgentOp.audioOp "s8" "aud" (some "q") "reply" 2,
   AgentOp.endOp "s8" 3]

def docNoEmb : Doc :=
  { id := "n1", content := "no embedding", docType := "text", pageNumber := none,
    embedding := none, msection := none, msafetyLevel := none }

def docEmptyEmb : Doc :=
  { id := "n2", content := "empty embedding", docType := "text", pageNumber := none,
    embedding := some [], msection := none, msafetyLevel := none }

def docGoodEmb : Doc :=
  { id := "n3", content := "embedded", docType := "text", pageNumber := none,
    embedding := some [2], msection := none, msafetyLevel := none }

def c10docs : List Doc := [docNoEmb, docEmptyEmb, docGoodEmb]

def c10embed : String → List ℚ := fun _ => [1]

def c10sim : List ℚ → List ℚ → ℚ := fun _ _ => 1

def c4words : List String := List.replicate 900 "w"

/-! ## Helper lemmas: the stable sort -/

theorem insertDescBy_perm {α : Type} (key : α → ℚ) (x : α) (l : List α) :
    (insertDescBy key x l).Perm (x :: l) := by
  induction l with
  | nil => simp [insertDescBy]
  | cons y ys ih =>
    by_cases h : key y ≤ key x
    · simp [insertDescBy, h]
    · simp only [insertDescBy, if_neg h]
      exact (ih.cons y).trans (List.Perm.swap x y ys)

theorem pySortDesc_perm {α : Type} (key : α → ℚ) (l : List α) :
    (pySortDesc key l).Perm l := by
  induction l with
  | nil => simp [pySortDesc]
  | cons x xs ih => exact (insertDescBy_perm key x (pySortDesc key xs)).trans (ih.cons x)

theorem pySortDesc_const {α : Type} (key : α → ℚ) (c : ℚ) :
    ∀ l : List α, (∀ x ∈ l, key x = c) → pySortDesc key l = l := by
  intro l
  induction l with
  | nil => intro _; rfl
  | cons x xs ih =>
    intro h
    have hxs : pySortDesc key xs = xs := ih (fun y hy => h y (List.mem_cons_of_mem x hy))
    show insertDescBy key x (pySortDesc key xs) = x :: xs
    rw [hxs]
    cases xs with
    | nil => rfl
    | cons y ys =>
      have hle : key y ≤ key x := by
        rw [h x (List.mem_cons_self x _), h y (List.mem_cons_of_mem x (List.mem_cons_self y ys))]
      simp [insertDescBy, hle]

theorem insertDescBy_sorted {α : Type} (key : α → ℚ) (x : α) (l : List α)
    (h : l.Pairwise (fun a b => key b ≤ key a)) :
    (insertDescBy key x l).Pairwise (fun a b => key b ≤ key a) := by
  induction l with
  | nil => simp [insertDescBy]
  | cons y ys ih =>
    rcases List.pairwise_cons.mp h with ⟨hy, hys⟩
    by_cases hxy : key y ≤ key x
    · simp only [insertDescBy, if_pos hxy]
      refine List.pairwise_cons.mpr ⟨?_, h⟩
      intro b hb
      rcases List.mem_cons.mp hb with hb | hb
      · exact hb ▸ hxy
      · exact (hy b hb).trans hxy
    · simp only [insertDescBy, if_neg hxy]
      refine List.pairwise_cons.mpr ⟨?_, ih hys⟩
      intro b hb
      have hb' : b ∈ x :: ys := (insertDescBy_perm key x ys).mem_iff.mp hb
      rcases List.mem_cons.mp hb' with hb' | hb'
      · exact hb' ▸ le_of_not_le hxy
      · exact hy b hb'

theorem pySortDesc_sorted {α : Type} (key : α → ℚ) (l : List α) :
    (pySortDesc key l).Pairwise (fun a b => key b ≤ key a) := by
  induction l with
  | nil => simp [pySortDesc]
  | cons x xs ih => exact insertDescBy_sorted key x (pySortDesc key xs) ih

/-! ## Helper lemmas: association lists -/

theorem lookup_dictSet_self {β : Type} (st : List (String × β)) (k : String) (v : β) :
    (dictSet st k v).lookup k = some v := by
  induction st with
  | nil => simp [dictSet, List.lookup]
  | cons p rest ih =>
    obtain ⟨k', v'⟩ := p
    by_cases h : k' = k
    · simp [dictSet, h, List.lookup]
    · have hbeq : (k == k') = false := beq_eq_false_iff_ne.mpr (fun e => h e.symm)
      simp [dictSet, h, List.lookup, hbeq, ih]

theorem dictSet_dictSet {β : Type} (st : List (String × β)) (k : String) (a b : β) :
    dictSet (dictSet st k a) k b = dictSet st k b := by
  induction st with
  | nil => simp [dictSet]
  | cons p rest ih =>
    obtain ⟨k', v'⟩ := p
    by_cases h : k' = k
    · simp [dictSet, h]
    · simp [dictSet, h, ih]

theorem mem_dictSet {β : Type} (st : List (String × β)) (k : String) (v : β)
    (p : String × β) (hp : p ∈ dictSet st k v) : p = (k, v) ∨ p ∈ st := by
  induction st with
  | nil => simpa [dictSet] using hp
  | cons q rest ih =>
    obtain ⟨k', v'⟩ := q
    by_cases h : k' = k
    · simp only [dictSet, if_pos h] at hp
      rcases List.mem_cons.mp hp with hp | hp
      · exact Or.inl hp
      · exact Or.inr (List.mem_cons_of_mem _ hp)
    · simp only [dictSet, if_neg h] at hp
      rcases List.mem_cons.mp hp with hp | hp
      · exact Or.inr (hp ▸ List.mem_cons_self _ _)
      · rcases ih hp with hp | hp
        · exact Or.inl hp
        · exact Or.inr (List.mem_cons_of_mem _ hp)

theorem lookup_mem {β : Type} :
    ∀ (st : List (String × β)) (k : String) (v : β), st.lookup k = some v → (k, v) ∈ st := by
  intro st
  induction st with
  | nil => intro k v h; simp [List.lookup] at h
  | cons q rest ih =>
    obtain ⟨k', v'⟩ := q
    intro k v h
    by_cases hk : k = k'
    · subst hk
      simp [List.lookup] at h
      exact h ▸ List.mem_cons_self _ _
    · have hbeq : (k == k') = false := beq_eq_false_iff_ne.mpr hk
      simp [List.lookup, hbeq] at h
      exact List.mem_cons_of_mem _ (ih k v h)

/-! ## Helper lemmas: dot products over `ℝ` -/

theorem dotProduct_nil_left (w : List ℝ) : dotProduct [] w = 0 := by
  simp [dotProduct]

theorem dotProduct_cons (x y : ℝ) (xs ys : List ℝ) :
    dotProduct (x :: xs) (y :: ys) = x * y + dotProduct xs ys := by
  simp [dotProduct]

theorem dotProduct_comm (v w : List ℝ) : dotProduct v w = dotProduct w v := by
  induction v generalizing w with
  | nil => cases w <;> simp [dotProduct]
  | cons x xs ih =>
    cases w with
    | nil => simp [dotProduct]
    | cons y ys => rw [dotProduct_cons, dotProduct_cons, mul_comm x y, ih ys]

theorem dotProduct_self_nonneg (v : List ℝ) : 0 ≤ dotProduct v v := by
  induction v with
  | nil => simp [dotProduct]
  | cons x xs ih =>
    rw [dotProduct_cons]
    exact add_nonneg (mul_self_nonneg x) ih

theorem dotProduct_self_pos (v : List ℝ) (x : ℝ) (hx : x ∈ v) (hx0 : x ≠ 0) :
    0 < dotProduct v v := by
  induction v with
  | nil => cases hx
  | cons y ys ih =>
    rw [dotProduct_cons]
    rcases List.mem_cons.mp hx with h | h
    · exact add_pos_of_pos_of_nonneg (h ▸ mul_self_pos.mpr hx0) (dotProduct_self_nonneg ys)
    · exact add_pos_of_nonneg_of_pos (mul_self_nonneg y) (ih h)

/-! ## Helper lemmas: the search pipeline -/

theorem searchSimilar_mem_filter (embedText : String → List ℚ)
    (sim : List ℚ → List ℚ → ℚ) (query : String) (documents : List Doc)
    (top_k : ℕ) (d : Doc) (hd : d ∈ searchSimilar embedText sim query documents top_k) :
    d ∈ documents.filter hasEmbedding := by
  simp only [searchSimilar] at hd
  by_cases h : (embedText query).isEmpty
  · simp [h] at hd
  · simp only [if_neg h] at hd
    rcases List.mem_map.mp hd with ⟨p, hp, hpd⟩
    have hp1 : p ∈ pySortDesc Prod.snd
        ((documents.filter hasEmbedding).map
          (fun d => (d, sim (embedText query) (docEmbedding d)))) :=
      List.Sublist.mem hp (List.take_sublist top_k _)
    have hp2 := (pySortDesc_perm Prod.snd _).mem_iff.mp hp1
    rcases List.mem_map.mp hp2 with ⟨d', hd', he⟩
    rw [← hpd, ← he]
    exact hd'

theorem imageSearchPart_mem_filter (embedImage : String → List ℚ)
    (sim : List ℚ → List ℚ → ℚ) (image : Option String) (documents : List Doc)
    (top_k : ℕ) (d : Doc) (hd : d ∈ imageSearchPart embedImage sim image documents top_k) :
    d ∈ documents.filter hasEmbedding := by
  simp only [imageSearchPart] at hd
  cases image with
  | none => simp at hd
  | some img =>
    by_cases himg : img = ""
    · simp [himg] at hd
    · simp only [if_neg himg] at hd
      by_cases h : (embedImage img).isEmpty
      · simp [h] at hd
      · simp only [if_neg h] at hd
        rcases List.mem_map.mp hd with ⟨p, hp, hpd⟩
        have hp1 : p ∈ pySortDesc Prod.snd
            ((documents.filter hasEmbedding).map
              (fun d => (d, sim (embedImage img) (docEmbedding d)))) :=
          List.Sublist.mem hp (List.take_sublist top_k _)
        have hp2 := (pySortDesc_perm Prod.snd _).mem_iff.mp hp1
        rcases List.mem_map.mp hp2 with ⟨d', hd', he⟩
        rw [← hpd, ← he]
        exact hd'

theorem searchSimilar_length_le (embedText : String → List ℚ)
    (sim : List ℚ → List ℚ → ℚ) (query : String) (documents : List Doc) (top_k : ℕ) :
    (searchSimilar embedText sim query documents top_k).length ≤ top_k := by
  simp only [searchSimilar]
  by_cases h : (embedText query).isEmpty
  · simp [h]
  · simp only [if_neg h, List.length_map]
    exact List.length_take_le top_k _

theorem textSearchPart_length_le (embedText : String → List ℚ)
    (sim : List ℚ → List ℚ → ℚ) (query : String) (documents : List Doc) (top_k : ℕ) :
    (textSearchPart embedText sim query documents top_k).length ≤ top_k := by
  simp only [textSearchPart]
  by_cases h : query = ""
  · simp [h]
  · simpa [h] using searchSimilar_length_le embedText sim query documents top_k

theorem imageSearchPart_length_le (embedImage : String → List ℚ)
    (sim : List ℚ → List ℚ → ℚ) (image : Option String) (documents : List Doc) (top_k : ℕ) :
    (imageSearchPart embedImage sim image documents top_k).length ≤ top_k := by
  simp only [imageSearchPart]
  cases image with
  | none => simp
  | some img =>
    by_cases himg : img = ""
    · simp [himg]
    · simp only [if_neg himg]
      by_cases h : (embedImage img).isEmpty
      · simp [h]
      · simp only [if_neg h, List.length_map]
        exact List.length_take_le top_k _

theorem collectUnique_append_sublist (top_k : ℕ) :
    ∀ (docs acc : List Doc), ∃ s, collectUnique top_k docs acc = acc ++ s ∧ s.Sublist docs := by
  intro docs
  induction docs with
  | nil => exact fun acc => ⟨[], by simp [collectUnique], List.nil_sublist _⟩
  | cons d rest ih =>
    intro acc
    by_cases hmem : d.id ∈ acc.map Doc.id
    · by_cases hbrk : top_k ≤ acc.length
      · exact ⟨[], by simp [collectUnique, hmem, hbrk], List.nil_sublist _⟩
      · obtain ⟨s, hs, hsub⟩ := ih acc
        exact ⟨s, by simp [collectUnique, hmem, hbrk, hs], hsub.cons d⟩
    · by_cases hbrk : top_k ≤ (acc ++ [d]).length
      · have hbrk' : top_k ≤ acc.length + 1 := by simpa using hbrk
        exact ⟨[d], by simp [collectUnique, hmem, hbrk'],
          List.cons_sublist_cons.mpr (List.nil_sublist rest)⟩
      · have hbrk' : ¬ top_k ≤ acc.length + 1 := by simpa using hbrk
        obtain ⟨s, hs, hsub⟩ := ih (acc ++ [d])
        refine ⟨d :: s, ?_, List.cons_sublist_cons.mpr hsub⟩
        simp only [collectUnique, if_neg hmem, List.length_append, List.length_cons,
          List.length_nil, Nat.zero_add, if_neg hbrk', hs, List.append_assoc,
          List.singleton_append]

theorem collectUnique_nodup (top_k : ℕ) :
    ∀ (docs acc : List Doc), (acc.map Doc.id).Nodup →
      ((collectUnique top_k docs acc).map Doc.id).Nodup := by
  intro docs
  induction docs with
  | nil => intro acc h; simpa [collectUnique] using h
  | cons d rest ih =>
    intro acc h
    by_cases hmem : d.id ∈ acc.map Doc.id
    · by_cases hbrk : top_k ≤ acc.length
      · simpa [collectUnique, hmem, hbrk] using h
      · simpa [collectUnique, hmem, hbrk] using ih acc h
    · have h' : ((acc ++ [d]).map Doc.id).Nodup := by
        rw [List.map_append]
        refine List.nodup_append.mpr ⟨h, List.nodup_singleton _, ?_⟩
        intro a ha hb
        simp only [List.map_cons, List.map_nil, List.mem_singleton] at hb
        exact hmem (hb ▸ ha)
      by_cases hbrk : top_k ≤ acc.length + 1
      · simpa [collectUnique, hmem, hbrk] using h'
      · simpa [collectUnique, hmem, hbrk] using ih (acc ++ [d]) h'

theorem collectUnique_length_le (top_k : ℕ) :
    ∀ (docs acc : List Doc), acc.length < top_k →
      (collectUnique top_k docs acc).length ≤ top_k := by
  intro docs
  induction docs with
  | nil => intro acc h; simpa [collectUnique] using le_of_lt h
  | cons d rest ih =>
    intro acc h
    by_cases hmem : d.id ∈ acc.map Doc.id
    · have : ¬ top_k ≤ acc.length := not_le.mpr h
      simpa [collectUnique, hmem, this] using ih acc h
    · by_cases hbrk : top_k ≤ acc.length + 1
      · have hlen : (acc ++ [d]).length ≤ top_k := by
          simp only [List.length_append, List.length_cons, List.length_nil]
          omega
        simpa [collectUnique, hmem, hbrk] using hlen
      · have hlt : (acc ++ [d]).length < top_k := by
          simp only [List.length_append, List.length_cons, List.length_nil]
          omega
        simpa [collectUnique, hmem, hbrk] using ih (acc ++ [d]) hlt

/-- C3: for every document collection, text query, image query and limit `k`,
`searchMultimodal` runs the text and image searches independently (each
producing at most `k` results), concatenates the text-derived results before
the image-derived ones, and deduplicates by document id keeping the first
occurrence while truncating to at most `k` results; in particular the
returned sequence never contains two documents with the same id (its `id`
projection is `Nodup`) and is an order-preserving subsequence of
text-results-then-image-results. -/
theorem c3_theorem (embedText embedImage : String → List ℚ)
    (sim : List ℚ → List ℚ → ℚ) (query : String) (image : Option String)
    (documents : List Doc) (top_k : ℕ) :
    ((searchMultimodal embedText embedImage sim query image documents top_k).map Doc.id).Nodup ∧
    (searchMultimodal embedText embedImage sim query image documents top_k).Sublist
      (textSearchPart embedText sim query documents top_k
        ++ imageSearchPart embedImage sim image documents top_k) ∧
    (textSearchPart embedText sim query documents top_k).length ≤ top_k ∧
    (imageSearchPart embedImage sim image documents top_k).length ≤ top_k ∧
    (searchMultimodal embedText embedImage sim query image documents top_k).length ≤ top_k := by
  refine ⟨collectUnique_nodup top_k _ [] (by simp), ?_, textSearchPart_length_le _ _ _ _ _,
    imageSearchPart_length_le _ _ _ _ _, ?_⟩
  · obtain ⟨s, hs, hsub⟩ := collectUnique_append_sublist top_k
      (textSearchPart embedText sim query documents top_k
        ++ imageSearchPart embedImage sim image documents top_k) []
    simpa [searchMultimodal, hs] using hsub
  · rcases Nat.eq_zero_or_pos top_k with h0 | h0
    · subst h0
      have ht : textSearchPart embedText sim query documents 0 = [] :=
        List.length_eq_zero.mp
          (Nat.le_zero.mp (textSearchPart_length_le embedText sim query documents 0))
      have hi : imageSearchPart embedImage sim image documents 0 = [] :=
        List.length_eq_zero.mp
          (Nat.le_zero.mp (imageSearchPart_length_le embedImage sim image documents 0))
      simp [searchMultimodal, ht, hi, collectUnique]
    · exact collectUnique_length_le top_k _ [] (by simpa using h0)

/-- C10: every document returned by `search_similar` or `search_multimodal`
passes the embedding guard — documents whose `embedding` key is missing or
whose embedding list is empty are excluded from similarity scoring and never
appear in any search result. -/
theorem c10_theorem (embedText embedImage : String → List ℚ)
    (sim : List ℚ → List ℚ → ℚ) (query : String) (image : Option String)
    (documents : List Doc) (top_k : ℕ) (d : Doc) :
    (d ∈ searchSimilar embedText sim query documents top_k → hasEmbedding d = true) ∧
    (d ∈ searchMultimodal embedText embedImage sim query image documents top_k →
      hasEmbedding d = true) := by
  constructor
  · intro hd
    exact List.of_mem_filter (searchSimilar_mem_filter embedText sim query documents top_k d hd)
  · intro hd
    obtain ⟨s, hs, hsub⟩ := collectUnique_append_sublist top_k
      (textSearchPart embedText sim query documents top_k
        ++ imageSearchPart embedImage sim image documents top_k) []
    have hd' : d ∈ textSearchPart embedText sim query documents top_k
        ++ imageSearchPart embedImage sim image documents top_k := by
      have : d ∈ ([] : List Doc) ++ s := hs ▸ hd
      exact List.Sublist.mem (by simpa using this) hsub
    rcases List.mem_append.mp hd' with hd' | hd'
    · simp only [textSearchPart] at hd'
      by_cases hq : query = ""
      · simp [hq] at hd'
      · simp only [if_neg hq] at hd'
        exact List.of_mem_filter (searchSimilar_mem_filter embedText sim query documents top_k d hd')
    · exact List.of_mem_filter (imageSearchPart_mem_filter embedImage sim image documents top_k d hd')

/-- C10 witness: in a collection with one missing-embedding document, one
empty-embedding document and one embedded document, the embedded document is
returned and passes the guard. -/
theorem c10_witness :
    (docGoodEmb ∈ searchSimilar c10embed c10sim "q" c10docs 5) ∧ hasEmbedding docGoodEmb = true :=
  ⟨by decide, (c10_theorem c10embed c10embed c10sim "q" none c10docs 5 docGoodEmb).1 (by decide)⟩

/-- C2 counterexample: three indexed chunks with safety levels
`[info, critical, warning]` and equal similarity to a safety-sensitive query
are returned by `search_similar` — the function that feeds the responder in
`/api/ask` — in their insertion order `[Info, Critical, Warning]`, not in the
claimed safety-priority order `[Critical, Warning, Info]`: the code contains
no `(safetyPriority desc, similarity desc)` re-sort for safety-sensitive
queries. -/
theorem c2_counterexample :
    isSafetySensitiveQuery "danger high voltage" = true ∧
    searchSimilar c2embed c2sim "danger high voltage" c2docs 5
      = [docInfo, docCritical, docWarning] ∧
    ([docInfo, docCritical, docWarning] : List Doc) ≠ [docCritical, docWarning, docInfo] := by
  refine ⟨by decide, by decide, by decide⟩

/-- C2 (amended): the code never re-ranks by safety.  `search_similar` orders
by similarity alone with stable ties — so equal-similarity results come back
in insertion order regardless of any safety sensitivity of the query — and
the only safety-aware retrieval, `get_safety_related_content`, filters
safety-related documents and stably sorts them by safety priority alone
(descending), without involving any similarity. -/
theorem c2_theorem :
    (∀ (embedText : String → List ℚ) (sim : List ℚ → List ℚ → ℚ) (query : String)
       (documents : List Doc) (top_k : ℕ) (c : ℚ),
       (embedText query).isEmpty = false →
       (∀ d ∈ documents, sim (embedText query) (docEmbedding d) = c) →
       searchSimilar embedText sim query documents top_k
         = (documents.filter hasEmbedding).take top_k) ∧
    (∀ documents : List Doc,
       (getSafetyRelatedContent documents).Perm (documents.filter isSafetyRelated) ∧
       (getSafetyRelatedContent documents).Pairwise
         (fun a b => safetyPriority b ≤ safetyPriority a)) := by
  constructor
  · intro embedText sim query documents top_k c hne hconst
    simp only [searchSimilar, hne, Bool.false_eq_true, if_false]
    have hkeys : ∀ p ∈ (documents.filter hasEmbedding).map
        (fun d => (d, sim (embedText query) (docEmbedding d))), Prod.snd p = c := by
      intro p hp
      rcases List.mem_map.mp hp with ⟨d, hd, he⟩
      rw [← he]
      exact hconst d (List.mem_of_mem_filter hd)
    rw [pySortDesc_const Prod.snd c _ hkeys, ← List.map_take, List.map_map]
    rw [show ((Prod.fst ∘ fun d => (d, sim (embedText query) (docEmbedding d)))
        = (id : Doc → Doc)) from rfl, List.map_id]
  · intro documents
    exact ⟨pySortDesc_perm safetyPriority _, pySortDesc_sorted safetyPriority _⟩

/-- C2 witness: the stability statement evaluated on the three-chunk
scenario. -/
theorem c2_witness :
    searchSimilar c2embed c2sim "danger cables" c2docs 3
      = (c2docs.filter hasEmbedding).take 3 :=
  c2_theorem.1 c2embed c2sim "danger cables" c2docs 3 1 rfl (fun d _ => rfl)

/-- C4: chunking with `maxWords = 500` and `overlapWords = 100`, on the word
list of the input text: chunks start every `400` words and hold at most `500`
words (the `j`-th chunk is exactly `words[400j : 400j+500]`), every word
index is covered by some chunk, and consecutive chunks share exactly the
`100`-word overlap — the suffix of length `100` of a chunk equals the prefix
of length `100` of its successor — except possibly at the last, shorter
chunk.  The `if chunk.strip()` guard never drops a chunk. -/
theorem c4_theorem (words : List String) :
    (splitTextIntoChunks 500 100 words).length = (words.length + 399) / 400 ∧
    (∀ j (h : j < (splitTextIntoChunks 500 100 words).length),
      (splitTextIntoChunks 500 100 words).get ⟨j, h⟩ = (words.drop (400 * j)).take 500 ∧
      ((splitTextIntoChunks 500 100 words).get ⟨j, h⟩).length ≤ 500) ∧
    (∀ k, k < words.length →
      ∃ j, ∃ h : j < (splitTextIntoChunks 500 100 words).length,
        400 * j ≤ k ∧ k < 400 * j + ((splitTextIntoChunks 500 100 words).get ⟨j, h⟩).length) ∧
    (∀ j (h1 : j < (splitTextIntoChunks 500 100 words).length)
       (h2 : j + 1 < (splitTextIntoChunks 500 100 words).length),
      j + 2 < (splitTextIntoChunks 500 100 words).length →
      ((splitTextIntoChunks 500 100 words).get ⟨j, h1⟩).drop 400
          = ((splitTextIntoChunks 500 100 words).get ⟨j + 1, h2⟩).take 100 ∧
        (((splitTextIntoChunks 500 100 words).get ⟨j + 1, h2⟩).take 100).length = 100) := by
  have hkey : splitTextIntoChunks 500 100 words
      = (pyRangeStep words.length 400).map (fun i => (words.drop i).take 500) := by
    apply List.filter_eq_self.mpr
    intro chunk hchunk
    rcases List.mem_map.mp hchunk with ⟨i, hi, he⟩
    rcases List.mem_range'.mp hi with ⟨jj, hjj, hval⟩
    have hiL : i < words.length := by
      have hn : jj < (words.length + 400 - 1) / 400 := hjj
      omega
    have : chunk.length = min 500 (words.length - i) := by
      rw [← he, List.length_take, List.length_drop]
    have hlen : 0 < chunk.length := by omega
    simp [List.isEmpty_iff, ← List.length_pos]
    omega
  have hlen : (splitTextIntoChunks 500 100 words).length = (words.length + 399) / 400 := by
    rw [hkey, List.length_map, pyRangeStep, List.length_range']
    omega
  have hget : ∀ j (h : j < (splitTextIntoChunks 500 100 words).length),
      (splitTextIntoChunks 500 100 words).get ⟨j, h⟩ = (words.drop (400 * j)).take 500 := by
    intro j h
    simp only [List.get_eq_getElem, hkey, pyRangeStep, List.getElem_map, List.getElem_range']
    norm_num
  refine ⟨hlen, ?_, ?_, ?_⟩
  · intro j h
    refine ⟨hget j h, ?_⟩
    rw [hget j h, List.length_take]
    exact min_le_left _ _
  · intro k hk
    refine ⟨k / 400, ?_, ?_, ?_⟩
    · rw [hlen]; omega
    · omega
    · rw [hget _ _, List.length_take, List.length_drop]
      have hmin : k - 400 * (k / 400) < min 500 (words.length - 400 * (k / 400)) :=
        lt_min (by omega) (by omega)
      omega
  · intro j h1 h2 hlast
    rw [hlen] at hlast
    have hfull : 400 * j + 500 ≤ words.length := by omega
    constructor
    · rw [hget j h1, hget (j + 1) h2, List.drop_take, List.drop_drop, List.take_take]
      have : 400 * j + 400 = 400 * (j + 1) := by ring
      rw [this]
      norm_num
    · rw [hget (j + 1) h2, List.take_take, List.length_take, List.length_drop]
      have h100 : 100 ≤ words.length - 400 * (j + 1) := by omega
      rw [show (100 : ℕ) ⊓ 500 = 100 by norm_num]
      exact min_eq_left h100

set_option maxRecDepth 8000 in
/-- C4 witness: a 900-word text yields three chunks, and word 450 is covered
by the word span of some chunk. -/
theorem c4_witness :
    (splitTextIntoChunks 500 100 c4words).length = 3 ∧
    (∃ j, ∃ h : j < (splitTextIntoChunks 500 100 c4words).length,
      400 * j ≤ 450 ∧
        450 < 400 * j + ((splitTextIntoChunks 500 100 c4words).get ⟨j, h⟩).length) :=
  ⟨(c4_theorem c4words).1, (c4_theorem c4words).2.2.1 450 (by simp [c4words])⟩

/-- C5: the cosine-similarity function returns exactly `1` on any non-zero
vector paired with itself, is symmetric, and returns exactly `0` — without
failing — on empty or length-mismatched inputs.  (Float arithmetic is
idealised over `ℝ`.) -/
theorem c5_theorem (v w : List ℝ) :
    ((∃ x ∈ v, x ≠ 0) → cosineSimilarity v v = 1) ∧
    cosineSimilarity v w = cosineSimilarity w v ∧
    ((v = [] ∨ w = [] ∨ v.length ≠ w.length) → cosineSimilarity v w = 0) := by
  refine ⟨?_, ?_, ?_⟩
  · rintro ⟨x, hx, hx0⟩
    have hv : v ≠ [] := by rintro rfl; cases hx
    have hpos : 0 < dotProduct v v := dotProduct_self_pos v x hx hx0
    rw [cosineSimilarity, if_neg (by simp [hv])]
    rw [Real.mul_self_sqrt (le_of_lt hpos)]
    exact div_self (ne_of_gt hpos)
  · by_cases hg : v = [] ∨ w = [] ∨ v.length ≠ w.length
    · have hg' : w = [] ∨ v = [] ∨ w.length ≠ v.length := by tauto
      rw [cosineSimilarity, if_pos hg, cosineSimilarity, if_pos hg']
    · have hg' : ¬ (w = [] ∨ v = [] ∨ w.length ≠ v.length) := by tauto
      rw [cosineSimilarity, if_neg hg, cosineSimilarity, if_neg hg',
        dotProduct_comm v w, mul_comm]
  · intro hg
    rw [cosineSimilarity, if_pos hg]

/-- C5 witness: the three properties at concrete vectors. -/
theorem c5_witness :
    cosineSimilarity [(1 : ℝ), 0] [1, 0] = 1 ∧
    cosineSimilarity [(1 : ℝ), 2] [3, 4] = cosineSimilarity [3, 4] [(1 : ℝ), 2] ∧
    cosineSimilarity [(1 : ℝ)] [] = 0 :=
  ⟨(c5_theorem [1, 0] [1, 0]).1 ⟨1, by simp, one_ne_zero⟩,
   (c5_theorem [1, 2] [3, 4]).2.1,
   (c5_theorem [1] []).2.2 (Or.inr (Or.inl rfl))⟩

/-- C6 counterexample: the reply `"123"` is valid JSON but is not parseable
as the expected structured reply, yet `generate_text_response` returns the
decoded number as-is instead of the fixed fallback — the fallback fires only
on a `json.loads` failure, never on a shape mismatch. -/
theorem c6_counterexample :
    Json.parse "123" = some (Json.jnum 123 0) ∧
    isAnswerShape (Json.jnum 123 0) = false ∧
    (generateTextResponse (fun _ => "123") "q" [] "p" "en").2 = Json.jnum 123 0 ∧
    Json.jnum 123 0 ≠ fallbackResponse "123" := by
  refine ⟨rfl, rfl, rfl, fun h => Json.noConfusion h⟩

/-- C6 (amended): whenever the responder reply fails `json.loads` entirely,
`generate_text_response` returns exactly the fixed fallback
`{answer: rawText, sources: [{page: "Multiple", section: "General",
relevance: 0.8}], confidence: 0.7, safety_warnings: []}`; a reply that parses
as JSON is returned as-is, with no validation of its shape. -/
theorem c6_theorem :
    (∀ (complete : String → String) (query : String) (docs : List Doc) (pid lang : String),
       Json.parse (complete (buildPrompt pid lang (buildContextText docs) query)) = none →
       (generateTextResponse complete query docs pid lang).2
         = fallbackResponse (complete (buildPrompt pid lang (buildContextText docs) query))) ∧
    (∀ raw : String, fallbackResponse raw
       = Json.jobj
           [("answer", Json.jstr raw),
            ("sources", Json.jarr
               [Json.jobj
                  [("page", Json.jstr "Multiple"),
                   ("section", Json.jstr "General"),
                   ("relevance", Json.jnum 8 (-1))]]),
            ("confidence", Json.jnum 7 (-1)),
            ("safety_warnings", Json.jarr [])]) := by
  constructor
  · intro complete query docs pid lang h
    simp only [generateTextResponse, h]
  · intro raw
    rfl

/-- C6 witness: the golden-output case — the plain-text reply
`"Just use the manual"` fails parsing and yields exactly the fallback. -/
theorem c6_witness :
    Json.parse "Just use the manual" = none ∧
    (generateTextResponse (fun _ => "Just use the manual") "q" [] "p" "en").2
      = fallbackResponse "Just use the manual" :=
  ⟨rfl, c6_theorem.1 (fun _ => "Just use the manual") "q" [] "p" "en" rfl⟩

/-- C1 counterexample: `end_session` on an unknown session id is a silent
no-op (it reports nothing to the caller), and a session in the Ended state is
not rejected: both `process_video_frame` and `process_audio` run to a normal
result on an ended session — no `SessionEnded` failure exists in the code. -/
theorem c1_counterexample :
    endSession [] "zzz" 7 = [] ∧
    (lookupSession c1state "s1").map Session.status = some "ended" ∧
    (processVideoFrame (fun _ => "hi") c1state "s1" "f" none none 2).isOk = true ∧
    (processAudio (fun _ => "hi") c1state "s1" "a" (some "q") 2).isOk = true := by
  exact ⟨rfl, rfl, rfl, rfl⟩

/-- C1 (amended): `process_video_frame` and `process_audio` on an unknown
session id raise `ValueError("Session ... not found")` to the caller, but
`end_session` on an unknown id silently does nothing; and no operation checks
the `Ended` state — on a session whose status is `"ended"`, both
`process_video_frame` and `process_audio` proceed and return a normal result
rather than failing with `SessionEnded`. -/
theorem c1_theorem :
    (∀ (complete : String → String) (st : SessionState) (sid frame : String)
       (audio tr : Option String) (now : ℕ),
       lookupSession st sid = none →
       processVideoFrame complete st sid frame audio tr now
           = Except.error ("Session " ++ sid ++ " not found") ∧
         processAudio complete st sid frame tr now
           = Except.error ("Session " ++ sid ++ " not found") ∧
         endSession st sid now = st) ∧
    (∀ (complete : String → String) (st : SessionState) (sid : String) (s : Session)
       (frame : String) (audio tr : Option String) (now : ℕ),
       lookupSession st sid = some s → s.status = "ended" →
       (processVideoFrame complete st sid frame audio tr now).isOk = true ∧
       (processAudio complete st sid frame tr now).isOk = true) := by
  constructor
  · intro complete st sid frame audio tr now h
    refine ⟨?_, ?_, ?_⟩ <;> simp [processVideoFrame, processAudio, endSession, h]
  · intro complete st sid s frame audio tr now h _
    constructor
    · simp only [processVideoFrame, h]
      split
      · split <;> rfl
      · rfl
    · simp only [processAudio, h]
      split
      · rfl
      · split
        · rfl
        · split <;> rfl

/-- C1 witness: the error and non-error behaviours at concrete states. -/
theorem c1_witness :
    (processVideoFrame (fun _ => "x") [] "nosuch" "f" none none 3
        = Except.error ("Session " ++ "nosuch" ++ " not found") ∧
      processAudio (fun _ => "x") [] "nosuch" "f" none 3
        = Except.error ("Session " ++ "nosuch" ++ " not found") ∧
      endSession [] "nosuch" 3 = []) ∧
    ((processVideoFrame (fun _ => "x") c1state "s1" "g" none (some "w") 4).isOk = true ∧
      (processAudio (fun _ => "x") c1state "s1" "g" (some "w") 4).isOk = true) :=
  ⟨c1_theorem.1 (fun _ => "x") [] "nosuch" "f" none none 3 rfl,
    c1_theorem.2 (fun _ => "x") c1state "s1" _ "g" none (some "w") 4 rfl rfl⟩

/-- C9 counterexample: a second `end_session` is not a no-op — it overwrites
`ended_at` with the newer timestamp, so the observable session state after
the second call differs from the state after the first. -/
theorem c9_counterexample :
    (lookupSession (endSession (endSession c9state "s9" 1) "s9" 2) "s9").map Session.endedAt
      = some (some 2) ∧
    (lookupSession (endSession c9state "s9" 1) "s9").map Session.endedAt = some (some 1) ∧
    endSession (endSession c9state "s9" 1) "s9" 2 ≠ endSession c9state "s9" 1 := by
  refine ⟨rfl, rfl, ?_⟩
  intro h
  have h2 : (some (some 2) : Option (Option ℕ)) = some (some 1) := by
    calc (some (some 2) : Option (Option ℕ))
        = (lookupSession (endSession (endSession c9state "s9" 1) "s9" 2) "s9").map
            Session.endedAt := rfl
      _ = (lookupSession (endSession c9state "s9" 1) "s9").map Session.endedAt := by rw [h]
      _ = some (some 1) := rfl
  exact absurd h2 (by decide)

/-- C9 (amended): `end_session` never raises; the first call on a known
session sets `status` to Ended and records the end timestamp; a second call
raises no error and preserves the Ended status, but it overwrites the end
timestamp with the time of the second call — ending twice equals ending once
at the later time (`endSession ∘ endSession = endSession`), a no-op only up
to the timestamp. -/
theorem c9_theorem (st : SessionState) (sid : String) (t1 t2 : ℕ) :
    endSession (endSession st sid t1) sid t2 = endSession st sid t2 ∧
    (∀ s, lookupSession st sid = some s →
      lookupSession (endSession st sid t1) sid
        = some { s with status := "ended", endedAt := some t1 }) := by
  constructor
  · cases h : lookupSession st sid with
    | none => simp [endSession, h]
    | some s =>
      have hl : lookupSession (dictSet st sid { s with status := "ended", endedAt := some t1 })
          sid = some { s with status := "ended", endedAt := some t1 } :=
        lookup_dictSet_self st sid _
      simp only [endSession, h, hl]
      rw [dictSet_dictSet]
  · intro s h
    simp only [endSession, h]
    exact lookup_dictSet_self st sid _

/-- C9 witness: the absorption equation and the first-call behaviour on a
concrete session. -/
theorem c9_witness :
    endSession (endSession c9state "s9" 3) "s9" 4 = endSession c9state "s9" 4 ∧
    lookupSession (endSession c9state "s9" 3) "s9"
      = some { mkSession "s9" "p9" sampleProduct 0 with status := "ended", endedAt := some 3 } :=
  ⟨(c9_theorem c9state "s9" 3 4).1,
   (c9_theorem c9state "s9" 3 4).2 (mkSession "s9" "p9" sampleProduct 0) rfl⟩

/-! ## Helper lemmas: session states reachable by the operations -/

theorem processVideoFrame_state (complete : String → String) (st : SessionState)
    (sid frame : String) (audio tr : Option String) (now : ℕ) (r : FrameResult)
    (st' : SessionState)
    (h : processVideoFrame complete st sid frame audio tr now = Except.ok (r, st')) :
    st' = st ∨ ∃ s s', lookupSession st sid = some s ∧ st' = dictSet st sid s' ∧
      s'.currentStep = s.currentStep := by
  cases hl : lookupSession st sid with
  | none => simp [processVideoFrame, hl] at h
  | some s =>
    simp only [processVideoFrame, hl] at h
    split at h
    · split at h
      · simp only [Except.ok.injEq, Prod.mk.injEq] at h
        exact Or.inr ⟨s, _, rfl, h.2.symm, rfl⟩
      · simp only [Except.ok.injEq, Prod.mk.injEq] at h
        exact Or.inr ⟨s, _, rfl, h.2.symm, rfl⟩
    · simp only [Except.ok.injEq, Prod.mk.injEq] at h
      exact Or.inl h.2.symm

theorem processAudio_state (complete : String → String) (st : SessionState)
    (sid audio : String) (tr : Option String) (now : ℕ) (r : AudioResult)
    (st' : SessionState)
    (h : processAudio complete st sid audio tr now = Except.ok (r, st')) :
    st' = st ∨ ∃ s s', lookupSession st sid = some s ∧ st' = dictSet st sid s' ∧
      s'.currentStep = s.currentStep := by
  cases hl : lookupSession st sid with
  | none => simp [processAudio, hl] at h
  | some s =>
    simp only [processAudio, hl] at h
    split at h
    · simp only [Except.ok.injEq, Prod.mk.injEq] at h
      exact Or.inl h.2.symm
    · split at h
      · simp only [Except.ok.injEq, Prod.mk.injEq] at h
        exact Or.inl h.2.symm
      · split at h
        · simp only [Except.ok.injEq, Prod.mk.injEq] at h
          exact Or.inr ⟨s, _, rfl, h.2.symm, rfl⟩
        · simp only [Except.ok.injEq, Prod.mk.injEq] at h
          exact Or.inl h.2.symm

theorem stepsOne_applyOp (st : SessionState) (op : AgentOp) (hst : stepsOne st) :
    stepsOne (applyOp st op) := by
  cases op with
  | createOp sid pid pdata now =>
    intro p hp
    rcases mem_dictSet st sid (mkSession sid pid pdata now) p hp with h | h
    · rw [h]; rfl
    · exact hst p h
  | frameOp sid fr au reply tr now =>
    intro p hp
    cases hres : processVideoFrame (fun _ => reply) st sid fr au tr now with
    | error e =>
      have happ : applyOp st (AgentOp.frameOp sid fr au reply tr now) = st := by
        simp [applyOp, hres]
      rw [happ] at hp
      exact hst p hp
    | ok v =>
      obtain ⟨r, stnew⟩ := v
      have happ : applyOp st (AgentOp.frameOp sid fr au reply tr now) = stnew := by
        simp [applyOp, hres]
      rw [happ] at hp
      rcases processVideoFrame_state (fun _ => reply) st sid fr au tr now r stnew hres with
        heq | ⟨s, s', hl, heq, hstep⟩
      · exact hst p (heq ▸ hp)
      · rw [heq] at hp
        rcases mem_dictSet st sid s' p hp with h | h
        · rw [h]
          show s'.currentStep = 1
          rw [hstep]
          exact hst (sid, s) (lookup_mem st sid s hl)
        · exact hst p h
  | audioOp sid au tr reply now =>
    intro p hp
    cases hres : processAudio (fun _ => reply) st sid au tr now with
    | error e =>
      have happ : applyOp st (AgentOp.audioOp sid au tr reply now) = st := by
        simp [applyOp, hres]
      rw [happ] at hp
      exact hst p hp
    | ok v =>
      obtain ⟨r, stnew⟩ := v
      have happ : applyOp st (AgentOp.audioOp sid au tr reply now) = stnew := by
        simp [applyOp, hres]
      rw [happ] at hp
      rcases processAudio_state (fun _ => reply) st sid au tr now r stnew hres with
        heq | ⟨s, s', hl, heq, hstep⟩
      · exact hst p (heq ▸ hp)
      · rw [heq] at hp
        rcases mem_dictSet st sid s' p hp with h | h
        · rw [h]
          show s'.currentStep = 1
          rw [hstep]
          exact hst (sid, s) (lookup_mem st sid s hl)
        · exact hst p h
  | endOp sid now =>
    intro p hp
    cases hl : lookupSession st sid with
    | none =>
      have happ : applyOp st (AgentOp.endOp sid now) = st := by simp [applyOp, endSession, hl]
      rw [happ] at hp
      exact hst p hp
    | some s =>
      have happ : applyOp st (AgentOp.endOp sid now)
          = dictSet st sid { s with status := "ended", endedAt := some now } := by
        simp [applyOp, endSession, hl]
      rw [happ] at hp
      rcases mem_dictSet st sid _ p hp with h | h
      · rw [h]
        show s.currentStep = 1
        exact hst (sid, s) (lookup_mem st sid s hl)
      · exact hst p h

theorem stepsOne_runOps (ops : List AgentOp) :
    ∀ st : SessionState, stepsOne st → stepsOne (runOps st ops) := by
  induction ops with
  | nil => exact fun st h => h
  | cons op rest ih => exact fun st h => ih (applyOp st op) (stepsOne_applyOp st op h)

/-- C8: a freshly created session has `currentStep = 1`, and across every
sequence of session operations applied to the (initially empty) session
table, a session's `currentStep` never decreases — in the source no
operation ever writes `current_step` after creation. -/
theorem c8_theorem :
    (∀ (st : SessionState) (sid pid : String) (pdata : ProductData) (now : ℕ),
       lookupSession ((createSession st sid pid pdata now).2) sid
           = some (mkSession sid pid pdata now) ∧
         (mkSession sid pid pdata now).currentStep = 1) ∧
    (∀ (ops0 ops : List AgentOp) (sid : String) (s s' : Session),
       lookupSession (runOps [] ops0) sid = some s →
       lookupSession (runOps (runOps [] ops0) ops) sid = some s' →
       s.currentStep ≤ s'.currentStep) := by
  constructor
  · intro st sid pid pdata now
    exact ⟨lookup_dictSet_self st sid _, rfl⟩
  · intro ops0 ops sid s s' h1 h2
    have hinv0 : stepsOne (runOps [] ops0) :=
      stepsOne_runOps ops0 [] (fun p hp => absurd hp (List.not_mem_nil p))
    have hinv1 : stepsOne (runOps (runOps [] ops0) ops) := stepsOne_runOps ops _ hinv0
    have e1 : s.currentStep = 1 := hinv0 (sid, s) (lookup_mem _ sid s h1)
    have e2 : s'.currentStep = 1 := hinv1 (sid, s') (lookup_mem _ sid s' h2)
    omega

/-- C8 witness: a concrete run — create, then frame, audio and end
operations — keeps `currentStep` at its creation value `1`. -/
theorem c8_witness :
    (lookupSession (runOps [] c8ops0) "s8").map Session.currentStep = some 1 ∧
    (lookupSession (runOps (runOps [] c8ops0) c8ops) "s8").map Session.currentStep = some 1 ∧
    (1 : ℕ) ≤ 1 :=
  ⟨rfl, rfl, c8_theorem.2 c8ops0 c8ops "s8" _ _ rfl rfl⟩

set_option maxRecDepth 16000 in
/-- C7 counterexample: in a session over six documents where only the sixth
is similar to the query, `process_audio` builds the responder context from
`documents[:5]` — the first five stored documents — and not from the top-5
most relevant chunks (`search_similar` would put the sixth document first),
so the context it sends differs from the one the claimed top-5 pipeline
would send. -/
theorem c7_counterexample :
    audioCtxOf (processAudio (fun p => p) c7state "s1" "aud" (some "which fuse") 3)
      = some (buildContextText (List.take 5 c7docs)) ∧
    searchSimilar c7embed c7sim "which fuse" c7docs 5 ≠ List.take 5 c7docs ∧
    buildContextText (searchSimilar c7embed c7sim "which fuse" c7docs 5)
      ≠ buildContextText (List.take 5 c7docs) := by
  exact ⟨rfl, by decide, by decide⟩

/-- C7 (amended): for every Active (indeed, every existing) session and
truthy transcript, `process_audio` runs the text pipeline against the first
five documents of the bound product's stored list — `documents[:5]`, not a
relevance-ranked top-5 — and, when it succeeds, appends a ConversationTurn
with `frameAnalyzed = false`. -/
theorem c7_theorem (complete : String → String) (st : SessionState)
    (sid audio t : String) (now : ℕ) (s : Session) (r : AudioResult)
    (st' : SessionState)
    (hl : lookupSession st sid = some s)
    (hrun : processAudio complete st sid audio (some t) now = Except.ok (r, st')) :
    ∀ tr ctx resp, r = AudioResult.success tr ctx resp →
      tr = t ∧
      ctx = buildContextText (s.productDocs.take 5) ∧
      ∃ answer, jsonGet resp "answer" = some answer ∧
        lookupSession st' sid = some
          { s with history := s.history ++
              [{ timestamp := now, frameAnalyzed := false, audioTranscript := some t,
                 aiResponse := answer, detectedObjects := none }] } := by
  intro tr ctx resp hr
  simp only [processAudio, hl] at hrun
  by_cases ht : t = ""
  · rw [if_pos ht] at hrun
    simp only [Except.ok.injEq, Prod.mk.injEq] at hrun
    exact AudioResult.noConfusion (hrun.1.trans hr)
  · rw [if_neg ht] at hrun
    cases hans : jsonGet (generateTextResponse complete t (s.productDocs.take 5)
        s.productId "en").2 "answer" with
    | none =>
      rw [hans] at hrun
      simp only [Except.ok.injEq, Prod.mk.injEq] at hrun
      exact AudioResult.noConfusion (hrun.1.trans hr)
    | some answer =>
      rw [hans] at hrun
      simp only [Except.ok.injEq, Prod.mk.injEq] at hrun
      obtain ⟨hr1, hr2⟩ := hrun
      rw [← hr1] at hr
      simp only [AudioResult.success.injEq] at hr
      obtain ⟨h_t, h_ctx, h_resp⟩ := hr
      refine ⟨h_t.symm, ?_, answer, ?_, ?_⟩
      · rw [← h_ctx]; rfl
      · rw [← h_resp]
        exact hans
      · rw [← hr2]
        exact lookup_dictSet_self st sid _

set_option maxRecDepth 16000 in
/-- C7 witness: the amended behaviour evaluated on the six-document
session. -/
theorem c7_witness :
    audioCtxOf (processAudio (fun _ => "nonjson") c7state "s1" "aud2" (some "hello") 9)
      = some (buildContextText ((mkSession "s1" "p1" c7product 0).productDocs.take 5)) := by
  obtain ⟨-, hctx, -⟩ := c7_theorem (fun _ => "nonjson") c7state "s1" "aud2" "hello" 9
    (mkSession "s1" "p1" c7product 0) _ _ rfl rfl "hello" _ _ rfl
  exact congrArg some hctx

end DehnManual
